import Mathlib

/-!
Shallow embedding of `pkg/cloudprovider/aws/instancetypes.go` (the
`InstanceTypeProvider` of asimshankar/karpenter): TTL caches, offering
synthesis against the unavailable-offerings cache, catalog filtering and
compression, and the `Get` orchestrator.

Modelling conventions:
* Time is a natural number.  A go-cache entry is a value paired with its
  absolute expiry; a read misses exactly when `now > expiry` (go-cache's
  `Get` misses when `time.Now().UnixNano() > item.Expiration`), and
  `SetDefault` stores expiry `now + defaultTTL`.
* Go `*string` fields that the file only reads through `aws.StringValue`
  are modelled as `String`; the nested info structs that
  `compressInstanceType` dereferences without a nil check are `Option`
  (a dereference of `none` models the panic, surfacing as `Option.none`
  of the whole computation).
* Go maps are association lists with in-place overwrite on insert;
  `sets.String` is a duplicate-free list of strings.
* The single `go-cache` instance `p.cache` stores two disjoint key
  families (`"types"` and `"zones:<hash>"`); it is modelled as the two
  typed fields `typesCache` and `zonesCache`.  The hashstructure
  fingerprint of the subnet selector is modelled by the selector value
  itself: the hash is deterministic, and collisions are neglected.
* The external collaborators (the paginated EC2 calls, the subnet
  provider and the pricing provider) are modelled as an `Env` record of
  fetch results.  The pagination callbacks in the source always return
  `true`, so a successful paginated fetch is the flattened list of
  records; a fetch error carries no data.
-/

/-- Projection of `ec2.VCpuInfo` kept by `compressInstanceType`. -/
structure VCpuInfo where
  defaultVCpus : Int
  deriving DecidableEq

/-- Projection of `ec2.MemoryInfo` kept by `compressInstanceType`. -/
structure MemoryInfo where
  sizeInMiB : Int
  deriving DecidableEq

/-- Projection of `ec2.ProcessorInfo` kept by `compressInstanceType`. -/
structure ProcessorInfo where
  supportedArchitectures : List String
  deriving DecidableEq

/-- Projection of `ec2.NetworkInfo` kept by `compressInstanceType`. -/
structure NetworkInfo where
  ipv4AddressesPerInterface : Int
  maximumNetworkInterfaces : Int
  deriving DecidableEq

/-- Fields of `ec2.InstanceTypeInfo` that `instancetypes.go` reads.  Pointer
fields that are dereferenced without a nil check, or kept only for their
nil-ness, are `Option`. -/
structure InstanceTypeInfo where
  instanceType : String
  hypervisor : Option String := none
  supportedUsageClasses : List String := []
  fpgaInfo : Option Unit := none
  gpuInfo : Option Unit := none
  inferenceAcceleratorInfo : Option Unit := none
  instanceStorageInfo : Option Unit := none
  vCpuInfo : Option VCpuInfo := none
  memoryInfo : Option MemoryInfo := none
  processorInfo : Option ProcessorInfo := none
  networkInfo : Option NetworkInfo := none
  deriving DecidableEq

/-- One `cloudprovider.Offering`: a purchasable (zone, capacity type) pair. -/
structure Offering where
  zone : String
  capacityType : String
  deriving DecidableEq

/-- The value `math.MaxFloat64` = (2^53 - 1) * 2^971, as an exact rational. -/
def maxFloat64 : ℚ := ((2 ^ 53 - 1) * 2 ^ 971 : ℕ)

/-- One element of the list returned by `Get`: the `cloudprovider.InstanceType`
built by `NewInstanceType(ctx, i, price, provider, offerings)`, restricted to
the data this file supplies. -/
structure InstanceTypeResult where
  info : InstanceTypeInfo
  price : ℚ
  offerings : List Offering
  deriving DecidableEq

/-- Go map assignment `m[k] = v`: overwrite in place when the key is present,
append otherwise. -/
def mapInsert {α : Type} (m : List (String × α)) (k : String) (v : α) :
    List (String × α) :=
  if (m.lookup k).isSome then
    m.map (fun kv => if kv.1 = k then (k, v) else kv)
  else
    m ++ [(k, v)]

/-- Insertion into a `sets.String` value, keeping the list duplicate free. -/
def setInsert (s : List String) (x : String) : List String :=
  if x ∈ s then s else s ++ [x]

/-- Building of `sets.NewString(xs...)`. -/
def newStringSet (xs : List String) : List String := xs.foldl setInsert []

/-- The constant `InstanceTypesAndZonesCacheTTL = 5 * time.Minute`, in seconds. -/
def instanceTypesAndZonesCacheTTL : Nat := 5 * 60

/-- The constant `UnfulfillableCapacityErrorCacheTTL = 3 * time.Minute`, in seconds. -/
def unfulfillableCapacityErrorCacheTTL : Nat := 3 * 60

/-- The value stored under the `"types"` cache key: instance-type name to
compressed record. -/
abbrev Catalog := List (String × InstanceTypeInfo)

/-- The value stored under a `"zones:<hash>"` cache key: instance-type name to
set of availability zones. -/
abbrev ZoneMap := List (String × List String)

/-- A subnet selector (`map[string]string`), standing in for its
hashstructure fingerprint. -/
abbrev Selector := List (String × String)

/-- The `unavailableOfferings` cache: composite key to absolute expiry (the
stored value `struct\x7b\x7d` carries no data). -/
abbrev UnavailableCache := List (String × Nat)

/-- Mutable state of one `InstanceTypeProvider`. -/
structure ProviderState where
  typesCache : Option (Catalog × Nat) := none
  zonesCache : List (Selector × ZoneMap × Nat) := []
  unavailableOfferings : UnavailableCache := []
  deriving DecidableEq

/-- State produced by `NewInstanceTypeProvider`: all caches empty. -/
def initialProviderState : ProviderState := {}

/-- go-cache read of the single catalog entry (key `InstanceTypesCacheKey`). -/
def cacheGetTypes (st : ProviderState) (now : Nat) : Option Catalog :=
  match st.typesCache with
  | some (cat, exp) => if now ≤ exp then some cat else none
  | none => none

/-- go-cache read of the zonal entry for one selector fingerprint. -/
def zonesCacheLookup (c : List (Selector × ZoneMap × Nat)) (sel : Selector)
    (now : Nat) : Option ZoneMap :=
  match c.find? (fun e => e.1 = sel) with
  | some (_, m, exp) => if now ≤ exp then some m else none
  | none => none

/-- go-cache `SetDefault` of the zonal entry for one selector fingerprint. -/
def zonesCacheSet (c : List (Selector × ZoneMap × Nat)) (sel : Selector)
    (m : ZoneMap) (exp : Nat) : List (Selector × ZoneMap × Nat) :=
  if (c.find? (fun e => e.1 = sel)).isSome then
    c.map (fun e => if e.1 = sel then (sel, m, exp) else e)
  else c ++ [(sel, m, exp)]

/-- go-cache read of the `unavailableOfferings` cache: `true` exactly when the
key is present and unexpired. -/
def unavailGet (c : UnavailableCache) (now : Nat) (k : String) : Bool :=
  match c.lookup k with
  | some exp => decide (now ≤ exp)
  | none => false

/-- The function `UnavailableOfferingsCacheKey`:
`fmt.Sprintf("%s:%s:%s", capacityType, instanceType, zone)`. -/
def UnavailableOfferingsCacheKey (instanceType zone capacityType : String) :
    String :=
  capacityType ++ ":" ++ instanceType ++ ":" ++ zone

/-- The method `CacheUnavailable`: `SetDefault` of the composite key, with
expiry `now + UnfulfillableCapacityErrorCacheTTL` whether or not the key is
already present.  The fleet error's instance type and zone are passed
directly; the error code is used only for logging. -/
def CacheUnavailable (st : ProviderState) (now : Nat)
    (instanceType zone capacityType : String) : ProviderState :=
  let key := UnavailableOfferingsCacheKey instanceType zone capacityType
  let exp := now + unfulfillableCapacityErrorCacheTTL
  { st with unavailableOfferings := mapInsert st.unavailableOfferings key exp }

/-- A burst of `CacheUnavailable` calls for one triple, at the given times. -/
def reportSeq (st : ProviderState) (times : List Nat)
    (instanceType zone capacityType : String) : ProviderState :=
  times.foldl (fun s t => CacheUnavailable s t instanceType zone capacityType) st

/-- The method `createOfferings`: cross product of the zone set and the
de-duplicated usage classes, skipping keys present in `unavailableOfferings`. -/
def createOfferings (unavail : UnavailableCache) (now : Nat)
    (instanceType : InstanceTypeInfo) (zones : List String) : List Offering :=
  zones.foldl (fun offerings zone =>
    (newStringSet instanceType.supportedUsageClasses).foldl
      (fun offerings capacityType =>
        if unavailGet unavail now
            (UnavailableOfferingsCacheKey instanceType.instanceType zone
              capacityType) then
          offerings
        else
          offerings ++ [{ zone := zone, capacityType := capacityType }])
      offerings) []

/-- Modelled from the spec: `functional.HasAnyPrefix` lives in
`pkg/utils/functional`, which is not under src/; per the spec it rejects
identifiers "matching a configured blocklist of instance-family prefixes". -/
def hasAnyPrefix (s : String) (prefixes : List String) : Bool :=
  prefixes.any (fun p => p.data.isPrefixOf s.data)

/-- The method `filter`: keep an instance type unless it exposes FPGA info or
its name carries a blocklisted prefix (the single prefix `"g2"`). -/
def filter (i : InstanceTypeInfo) : Bool :=
  if i.fpgaInfo.isSome then false
  else if hasAnyPrefix i.instanceType ["g2"] then false
  else true

/-- The function `compressInstanceType`.  It dereferences `VCpuInfo`,
`MemoryInfo`, `ProcessorInfo` and `NetworkInfo` without nil checks; `none`
here models the nil-pointer panic. -/
def compressInstanceType (i : InstanceTypeInfo) : Option InstanceTypeInfo :=
  match i.vCpuInfo, i.memoryInfo, i.processorInfo, i.networkInfo with
  | some v, some m, some pr, some n =>
    some { instanceType := i.instanceType
           hypervisor := i.hypervisor
           supportedUsageClasses := i.supportedUsageClasses
           vCpuInfo := some { defaultVCpus := v.defaultVCpus }
           gpuInfo := i.gpuInfo
           inferenceAcceleratorInfo := i.inferenceAcceleratorInfo
           instanceStorageInfo := i.instanceStorageInfo
           memoryInfo := some { sizeInMiB := m.sizeInMiB }
           processorInfo :=
             some { supportedArchitectures := pr.supportedArchitectures }
           networkInfo :=
             some { ipv4AddressesPerInterface := n.ipv4AddressesPerInterface
                    maximumNetworkInterfaces := n.maximumNetworkInterfaces } }
  | _, _, _, _ => none

/-- Results of the external collaborators during one call: the two paginated
EC2 fetches (flattened: every page callback in the source returns `true`),
the subnet provider (only each subnet's availability zone is read), and the
pricing provider's `OnDemandPrice` (`none` models the error return). -/
structure Env where
  describeInstanceTypes : Except Unit (List InstanceTypeInfo)
  subnetAvailabilityZones : Except Unit (List String)
  describeInstanceTypeOfferings : Except Unit (List (String × String))
  onDemandPrice : String → Option ℚ

/-- The accumulation loop of `getInstanceTypes`: filter each record, compress
it, and store it under its name.  `none` models the nil-dereference panic in
`compressInstanceType`. -/
def buildInstanceTypes (records : List InstanceTypeInfo) : Option Catalog :=
  records.foldlM (fun m it =>
    if filter it then
      (compressInstanceType it).map (fun c => mapInsert m it.instanceType c)
    else some m) []

/-- The method `getInstanceTypes`: serve the cached catalog when unexpired,
otherwise fetch, filter, compress, cache and return. -/
def getInstanceTypes (st : ProviderState) (now : Nat) (env : Env) :
    Option (ProviderState × Except Unit Catalog) :=
  match cacheGetTypes st now with
  | some cached => some (st, .ok cached)
  | none =>
    match env.describeInstanceTypes with
    | .error e => some (st, .error e)
    | .ok records =>
      (buildInstanceTypes records).map (fun instanceTypes =>
        let exp := now + instanceTypesAndZonesCacheTTL
        ({ st with typesCache := some (instanceTypes, exp) }, .ok instanceTypes))

/-- The accumulation loop of `getInstanceTypeZones`: keep offerings whose
location is a candidate zone, and collect locations per instance type. -/
def accumulateZones (zones : List String) (offs : List (String × String)) :
    ZoneMap :=
  offs.foldl (fun m off =>
    if off.2 ∈ zones then
      mapInsert m off.1 (setInsert ((m.lookup off.1).getD []) off.2)
    else m) []

/-- The manual override in `getInstanceTypeZones`: force `p4de.24xlarge` into
`us-east-1d` when absent from the accumulated map and the zone is a
candidate. -/
def applyOverride (zones : List String) (itz : ZoneMap) : ZoneMap :=
  if (itz.lookup "p4de.24xlarge").isNone ∧ "us-east-1d" ∈ zones then
    mapInsert itz "p4de.24xlarge" (newStringSet ["us-east-1d"])
  else itz

/-- The method `getInstanceTypeZones`: serve the cached zonal map for this
selector when unexpired, otherwise resolve subnets to candidate zones,
accumulate the fetched offerings, apply the override, cache and return. -/
def getInstanceTypeZones (st : ProviderState) (now : Nat) (env : Env)
    (sel : Selector) : ProviderState × Except Unit ZoneMap :=
  match zonesCacheLookup st.zonesCache sel now with
  | some cached => (st, .ok cached)
  | none =>
    match env.subnetAvailabilityZones with
    | .error e => (st, .error e)
    | .ok azs =>
      let zones := newStringSet azs
      match env.describeInstanceTypeOfferings with
      | .error e => (st, .error e)
      | .ok offs =>
        let instanceTypeZones := applyOverride zones (accumulateZones zones offs)
        let exp := now + instanceTypesAndZonesCacheTTL
        let zc := zonesCacheSet st.zonesCache sel instanceTypeZones exp
        ({ st with zonesCache := zc }, .ok instanceTypeZones)

/-- Body of the result loop of `Get` (lines building `NewInstanceType`): price
the shape (sentinel `maxFloat64` on pricing error) and synthesize its
offerings from its zone set; an absent zonal entry yields the empty zone set
(`nil` map read in Go). -/
def assembleResult (env : Env) (st : ProviderState) (now : Nat) (itz : ZoneMap)
    (kv : String × InstanceTypeInfo) : InstanceTypeResult :=
  let instanceTypeName := kv.2.instanceType
  let price := (env.onDemandPrice instanceTypeName).getD maxFloat64
  let offerings := createOfferings st.unavailableOfferings now kv.2
    ((itz.lookup instanceTypeName).getD [])
  { info := kv.2, price := price, offerings := offerings }

/-- The method `Get`: fetch the catalog and the zonal map, then assemble one
result per catalog entry.  `none` models a panic. -/
def Get (st : ProviderState) (now : Nat) (env : Env) (sel : Selector) :
    Option (ProviderState × Except Unit (List InstanceTypeResult)) :=
  match getInstanceTypes st now env with
  | none => none
  | some (st1, .error e) => some (st1, .error e)
  | some (st1, .ok instanceTypes) =>
    match getInstanceTypeZones st1 now env sel with
    | (st2, .error e) => some (st2, .error e)
    | (st2, .ok instanceTypeZones) =>
      some (st2, .ok (instanceTypes.map
        (assembleResult env st2 now instanceTypeZones)))

/-! ### Association-list and string-set toolkit -/

theorem lookup_replace_ne {α : Type} (m : List (String × α)) (k k' : String)
    (v : α) (h : k' ≠ k) :
    (m.map (fun kv => if kv.1 = k then (k, v) else kv)).lookup k' = m.lookup k' := by
  induction m with
  | nil => rfl
  | cons kv m ih =>
    obtain ⟨k0, v0⟩ := kv
    simp only [List.map_cons]
    by_cases hk : k0 = k
    · subst hk
      have hb : (k' == k0) = false := by simp [h]
      simp [List.lookup_cons, hb, ih]
    · simp only [if_neg hk]
      cases hbk : (k' == k0) <;> simp [List.lookup_cons, hbk, ih]

theorem lookup_replace_self {α : Type} (m : List (String × α)) (k : String)
    (v : α) (h : (m.lookup k).isSome) :
    (m.map (fun kv => if kv.1 = k then (k, v) else kv)).lookup k = some v := by
  induction m with
  | nil => simp [List.lookup] at h
  | cons kv m ih =>
    obtain ⟨k0, v0⟩ := kv
    simp only [List.map_cons]
    by_cases hk : k0 = k
    · subst hk
      simp [List.lookup_cons]
    · have hb : (k == k0) = false := by
        simp only [beq_eq_false_iff_ne, ne_eq]
        exact fun hh => hk hh.symm
      simp only [if_neg hk]
      simp only [List.lookup_cons, hb] at h ⊢
      exact ih h

theorem lookup_append {α : Type} (l₁ l₂ : List (String × α)) (k : String) :
    (l₁ ++ l₂).lookup k =
      match l₁.lookup k with
      | some v => some v
      | none => l₂.lookup k := by
  induction l₁ with
  | nil => simp [List.lookup]
  | cons kv l₁ ih =>
    obtain ⟨k0, v0⟩ := kv
    cases hbk : (k == k0) <;> simp [List.lookup_cons, hbk, ih]

theorem lookup_mapInsert {α : Type} (m : List (String × α)) (k k' : String)
    (v : α) :
    (mapInsert m k v).lookup k' = if k' = k then some v else m.lookup k' := by
  unfold mapInsert
  by_cases hk : k' = k
  · subst hk
    split
    · rename_i h
      simp [lookup_replace_self m k' v h]
    · rename_i h
      have hnone : m.lookup k' = none := by
        cases hm : m.lookup k' <;> simp [hm] at h ⊢
      simp [lookup_append, hnone, List.lookup_cons]
  · split
    · simp [lookup_replace_ne m k k' v hk, hk]
    · have hb : (k' == k) = false := by simp [hk]
      simp [lookup_append, hk, List.lookup_cons, hb]
      cases hm : m.lookup k' <;> simp [List.lookup, hb]

theorem mem_setInsert (s : List String) (x a : String) :
    a ∈ setInsert s x ↔ a ∈ s ∨ a = x := by
  unfold setInsert
  split <;> rename_i h
  · constructor
    · exact fun ha => Or.inl ha
    · rintro (ha | rfl)
      · exact ha
      · exact h
  · simp

theorem nodup_setInsert (s : List String) (x : String) (h : s.Nodup) :
    (setInsert s x).Nodup := by
  unfold setInsert
  split <;> rename_i hx
  · exact h
  · simpa [List.nodup_append] using ⟨h, fun hmem => hx hmem⟩

theorem mem_foldl_setInsert (xs : List String) (acc : List String) (a : String) :
    a ∈ xs.foldl setInsert acc ↔ a ∈ acc ∨ a ∈ xs := by
  induction xs generalizing acc with
  | nil => simp
  | cons x xs ih =>
    simp only [List.foldl_cons, ih, mem_setInsert, List.mem_cons]
    tauto

theorem nodup_foldl_setInsert (xs : List String) (acc : List String)
    (h : acc.Nodup) : (xs.foldl setInsert acc).Nodup := by
  induction xs generalizing acc with
  | nil => exact h
  | cons x xs ih => exact ih _ (nodup_setInsert _ _ h)

theorem mem_newStringSet (xs : List String) (a : String) :
    a ∈ newStringSet xs ↔ a ∈ xs := by
  simp [newStringSet, mem_foldl_setInsert]

theorem nodup_newStringSet (xs : List String) : (newStringSet xs).Nodup :=
  nodup_foldl_setInsert xs [] List.nodup_nil

/-! ### Characterization of `createOfferings` -/

/-- Accumulator form of a fold that conditionally appends one element. -/
theorem foldl_append_flatMap {α β : Type} (g : α → List β) (xs : List α)
    (acc : List β) (f : List β → α → List β) (hf : ∀ a x, f a x = a ++ g x) :
    xs.foldl f acc = acc ++ xs.flatMap g := by
  induction xs generalizing acc with
  | nil => simp
  | cons x xs ih => simp [hf, ih, List.flatMap_cons]

/-- Filter-map that the inner capacity-type loop of `createOfferings`
computes for one zone. -/
def offeringsForZone (u : UnavailableCache) (now : Nat) (s : String)
    (cs : List String) (z : String) : List Offering :=
  cs.filterMap (fun c =>
    if unavailGet u now (UnavailableOfferingsCacheKey s z c) then none
    else some { zone := z, capacityType := c })

theorem foldl_capacity_eq (u : UnavailableCache) (now : Nat) (s z : String)
    (cs : List String) (acc : List Offering) :
    cs.foldl (fun offerings capacityType =>
        if unavailGet u now (UnavailableOfferingsCacheKey s z capacityType) then
          offerings
        else offerings ++ [{ zone := z, capacityType := capacityType }]) acc =
      acc ++ offeringsForZone u now s cs z := by
  induction cs generalizing acc with
  | nil => simp [offeringsForZone]
  | cons c cs ih =>
    by_cases h : unavailGet u now (UnavailableOfferingsCacheKey s z c) = true <;>
      simp [offeringsForZone, h, ih, List.filterMap_cons]

theorem createOfferings_eq (u : UnavailableCache) (now : Nat)
    (it : InstanceTypeInfo) (zones : List String) :
    createOfferings u now it zones =
      zones.flatMap
        (offeringsForZone u now it.instanceType
          (newStringSet it.supportedUsageClasses)) := by
  unfold createOfferings
  have h := foldl_append_flatMap
    (offeringsForZone u now it.instanceType
      (newStringSet it.supportedUsageClasses)) zones ([] : List Offering)
    _ (fun a z => foldl_capacity_eq u now it.instanceType z
        (newStringSet it.supportedUsageClasses) a)
  simpa using h

theorem mem_createOfferings (u : UnavailableCache) (now : Nat)
    (it : InstanceTypeInfo) (zones : List String) (z c : String) :
    ({ zone := z, capacityType := c } : Offering) ∈ createOfferings u now it zones ↔
      z ∈ zones ∧ c ∈ newStringSet it.supportedUsageClasses ∧
        unavailGet u now (UnavailableOfferingsCacheKey it.instanceType z c) = false := by
  rw [createOfferings_eq]
  simp only [List.mem_flatMap, offeringsForZone, List.mem_filterMap]
  constructor
  · rintro ⟨z', hz', c', hc', h⟩
    split at h
    · simp at h
    · rename_i hun
      obtain ⟨hz, hc⟩ := Offering.mk.injEq .. ▸ (Option.some.injEq .. ▸ h)
      subst hz; subst hc
      exact ⟨hz', hc', Bool.not_eq_true _ ▸ hun⟩
  · rintro ⟨hz, hc, hun⟩
    exact ⟨z, hz, c, hc, by simp [hun]⟩

theorem nodup_createOfferings (u : UnavailableCache) (now : Nat)
    (it : InstanceTypeInfo) (zones : List String) (hz : zones.Nodup) :
    (createOfferings u now it zones).Nodup := by
  rw [createOfferings_eq]
  refine List.nodup_flatMap.2 ⟨fun z _ => ?_, ?_⟩
  · refine List.Nodup.filterMap ?_ (nodup_newStringSet _)
    intro a a' b hb hb'
    split at hb
    · simp at hb
    · split at hb'
      · simp at hb'
      · rw [Option.mem_some_iff] at hb hb'
        exact congrArg Offering.capacityType (hb.trans hb'.symm)
  · refine hz.imp ?_
    intro z z' hne o ho ho'
    simp only [offeringsForZone, List.mem_filterMap] at ho ho'
    obtain ⟨c, _, hc⟩ := ho
    obtain ⟨c', _, hc'⟩ := ho'
    split at hc
    · simp at hc
    · split at hc'
      · simp at hc'
      · rw [Option.some_inj] at hc hc'
        exact hne (congrArg Offering.zone (hc.trans hc'.symm))

/-! ### Injectivity of the composite cache key for colon-free components -/

theorem append_colon_inj : ∀ (as as' bs bs' : List Char), (':' : Char) ∉ as →
    (':' : Char) ∉ as' → as ++ ':' :: bs = as' ++ ':' :: bs' →
    as = as' ∧ bs = bs' := by
  intro as
  induction as with
  | nil =>
    intro as' bs bs' _ ha' h
    cases as' with
    | nil => simpa using h
    | cons y ys =>
      simp only [List.nil_append, List.cons_append, List.cons.injEq] at h
      exact absurd (by rw [← h.1]; exact List.mem_cons_self _ _) ha'
  | cons x xs ih =>
    intro as' bs bs' ha ha' h
    cases as' with
    | nil =>
      simp only [List.cons_append, List.nil_append, List.cons.injEq] at h
      exact absurd (by rw [← h.1]; exact List.mem_cons_self _ _) ha
    | cons y ys =>
      simp only [List.cons_append, List.cons.injEq] at h
      obtain ⟨rfl, h2⟩ := h
      have hxs : (':' : Char) ∉ xs := fun hm => ha (List.mem_cons_of_mem _ hm)
      have hys : (':' : Char) ∉ ys := fun hm => ha' (List.mem_cons_of_mem _ hm)
      obtain ⟨h3, h4⟩ := ih ys bs bs' hxs hys h2
      exact ⟨by rw [h3], h4⟩

/-- Key data as a list of characters: `capacityType : instanceType : zone`. -/
theorem UnavailableOfferingsCacheKey_data (s z c : String) :
    (UnavailableOfferingsCacheKey s z c).data =
      c.data ++ ':' :: (s.data ++ ':' :: z.data) := by
  simp [UnavailableOfferingsCacheKey, String.data_append]

/-- For colon-free capacity types (as the EC2 usage classes are), the composite
key determines the zone and the capacity type of a fixed instance type. -/
theorem UnavailableOfferingsCacheKey_inj (s z z' c c' : String)
    (hc : (':' : Char) ∉ c.data) (hc' : (':' : Char) ∉ c'.data)
    (h : UnavailableOfferingsCacheKey s z c = UnavailableOfferingsCacheKey s z' c') :
    z = z' ∧ c = c' := by
  have hd := congrArg String.data h
  rw [UnavailableOfferingsCacheKey_data, UnavailableOfferingsCacheKey_data] at hd
  obtain ⟨h1, h2⟩ := append_colon_inj _ _ _ _ hc hc' hd
  have h3 := List.append_cancel_left h2
  have h4 : z.data = z'.data := by
    simpa using h3
  exact ⟨String.ext h4, String.ext h1⟩

/-! ### Claim C1 -/

/-- Shape used by the C1 counterexample: instance type "b" supporting the
single purchase class "a". -/
def c1Shape : InstanceTypeInfo :=
  { instanceType := "b", supportedUsageClasses := ["a"] }

/-- Negative cache state after reporting the triple
(class "a:b", shape "b", zone "c") at time 0. -/
def c1CollidingState : ProviderState :=
  CacheUnavailable initialProviderState 0 "b" "c" "a:b"

/-- C1 is false as stated: the composite key is a colon-joined string, so
reporting the triple (class "a:b", shape "b", zone "c") also suppresses the
distinct combination (class "a", zone "b:c") of the same shape "b" — both
map to the key "a:b:b:c".  Without the report the offering is synthesized;
after the report, at a time within the TTL, it is excluded although its own
triple was never reported. -/
theorem C1_counterexample :
    ("a", "b:c") ≠ ("a:b", "c") ∧
    createOfferings initialProviderState.unavailableOfferings 0 c1Shape ["b:c"] =
      [{ zone := "b:c", capacityType := "a" }] ∧
    createOfferings c1CollidingState.unavailableOfferings 0 c1Shape ["b:c"] = [] :=
  ⟨by decide, by decide, by decide⟩

/-- C1 (amended): an offering of the synthesized cross-product is excluded
from the result exactly when its composite key (class, shape, zone) is
present and unexpired in the negative cache; and provided the purchase-class
strings contain no ':' (as the EC2 usage classes do), distinct (class, zone)
combinations of one shape have distinct keys, so reporting one triple never
suppresses another combination of that shape. -/
theorem C1_offering_excluded_iff_key_unavailable
    (u : UnavailableCache) (now : Nat) (it : InstanceTypeInfo)
    (zones : List String) (z c : String) :
    (z ∈ zones → c ∈ newStringSet it.supportedUsageClasses →
      (({ zone := z, capacityType := c } : Offering) ∉ createOfferings u now it zones ↔
        unavailGet u now (UnavailableOfferingsCacheKey it.instanceType z c) = true)) ∧
    (∀ z' c', (':' : Char) ∉ c.data → (':' : Char) ∉ c'.data → (z, c) ≠ (z', c') →
      UnavailableOfferingsCacheKey it.instanceType z c ≠
        UnavailableOfferingsCacheKey it.instanceType z' c') := by
  constructor
  · intro hz hc
    rw [mem_createOfferings]
    simp [hz, hc]
  · intro z' c' hcol hcol' hne hkey
    obtain ⟨hzz, hcc⟩ :=
      UnavailableOfferingsCacheKey_inj it.instanceType z z' c c' hcol hcol' hkey
    exact hne (by rw [hzz, hcc])

/-- Witness for C1: with the negative cache holding only the key of
(class "spot", shape "m5.large", zone "us-x-1a"), that exact offering is
excluded while key distinctness separates it from (class "on-demand",
zone "us-x-1a"). -/
theorem C1_offering_excluded_iff_key_unavailable_witness :
    (({ zone := "us-x-1a", capacityType := "spot" } : Offering) ∉
      createOfferings [(UnavailableOfferingsCacheKey "m5.large" "us-x-1a" "spot", 180)] 0
        { instanceType := "m5.large", supportedUsageClasses := ["spot", "on-demand"] }
        ["us-x-1a"] ↔
      unavailGet [(UnavailableOfferingsCacheKey "m5.large" "us-x-1a" "spot", 180)] 0
        (UnavailableOfferingsCacheKey "m5.large" "us-x-1a" "spot") = true) ∧
    UnavailableOfferingsCacheKey "m5.large" "us-x-1a" "spot" ≠
      UnavailableOfferingsCacheKey "m5.large" "us-x-1a" "on-demand" := by
  have h := C1_offering_excluded_iff_key_unavailable
    [(UnavailableOfferingsCacheKey "m5.large" "us-x-1a" "spot", 180)] 0
    { instanceType := "m5.large", supportedUsageClasses := ["spot", "on-demand"] }
    ["us-x-1a"] "us-x-1a" "spot"
  exact ⟨h.1 (by decide) (by decide),
    h.2 "us-x-1a" "on-demand" (by decide) (by decide) (by decide)⟩

/-! ### Claim C3 -/

/-- C3: `createOfferings` returns exactly the cross product of the zone set
with the de-duplicated purchase classes, minus suppressed triples, and the
result never contains duplicates even when the upstream usage classes do. -/
theorem C3_cross_product_exact
    (u : UnavailableCache) (now : Nat) (it : InstanceTypeInfo)
    (zones : List String) (hz : zones.Nodup) :
    (∀ z c,
      ({ zone := z, capacityType := c } : Offering) ∈ createOfferings u now it zones ↔
        z ∈ zones ∧ c ∈ newStringSet it.supportedUsageClasses ∧
          unavailGet u now (UnavailableOfferingsCacheKey it.instanceType z c) = false) ∧
    (∀ c, c ∈ newStringSet it.supportedUsageClasses ↔ c ∈ it.supportedUsageClasses) ∧
    (newStringSet it.supportedUsageClasses).Nodup ∧
    (createOfferings u now it zones).Nodup :=
  ⟨fun z c => mem_createOfferings u now it zones z c,
   fun c => mem_newStringSet _ c,
   nodup_newStringSet _,
   nodup_createOfferings u now it zones hz⟩

/-- Witness for C3: a shape with the duplicated class list
["spot", "on-demand", "spot"] over zones ["z1", "z2"] yields the four
distinct offerings of the cross product. -/
theorem C3_cross_product_exact_witness :
    (({ zone := "z1", capacityType := "spot" } : Offering) ∈
      createOfferings [] 0
        { instanceType := "m5.large",
          supportedUsageClasses := ["spot", "on-demand", "spot"] } ["z1", "z2"] ↔
      "z1" ∈ ["z1", "z2"] ∧
        "spot" ∈ newStringSet ["spot", "on-demand", "spot"] ∧
          unavailGet [] 0 (UnavailableOfferingsCacheKey "m5.large" "z1" "spot") = false) ∧
    (createOfferings [] 0
      { instanceType := "m5.large",
        supportedUsageClasses := ["spot", "on-demand", "spot"] } ["z1", "z2"]).Nodup := by
  have h := C3_cross_product_exact [] 0
    { instanceType := "m5.large", supportedUsageClasses := ["spot", "on-demand", "spot"] }
    ["z1", "z2"] (by decide)
  exact ⟨h.1 "z1" "spot", h.2.2.2⟩

/-! ### Claim C2 -/

theorem CacheUnavailable_lookup (st : ProviderState) (now : Nat)
    (s z c : String) :
    (CacheUnavailable st now s z c).unavailableOfferings.lookup
        (UnavailableOfferingsCacheKey s z c) =
      some (now + unfulfillableCapacityErrorCacheTTL) := by
  simp [CacheUnavailable, lookup_mapInsert]

theorem reportSeq_cons (st : ProviderState) (t : Nat) (ts : List Nat)
    (s z c : String) :
    reportSeq st (t :: ts) s z c = reportSeq (CacheUnavailable st t s z c) ts s z c :=
  rfl

theorem reportSeq_lookup_last (st : ProviderState) (l : List Nat) (hl : l ≠ [])
    (s z c : String) :
    (reportSeq st l s z c).unavailableOfferings.lookup
        (UnavailableOfferingsCacheKey s z c) =
      some (l.getLast hl + unfulfillableCapacityErrorCacheTTL) := by
  induction l generalizing st with
  | nil => cases hl rfl
  | cons t ts ih =>
    cases ts with
    | nil => simpa [reportSeq] using CacheUnavailable_lookup st t s z c
    | cons t2 ts2 =>
      rw [reportSeq_cons, ih (CacheUnavailable st t s z c) (by simp),
        List.getLast_cons (by simp : (t2 :: ts2 : List Nat) ≠ [])]

/-- Every entry of a gap-bounded, ascending report list is at least its head. -/
theorem chain_le_head (K : Nat) :
    ∀ (ts : List Nat) (b : Nat),
      List.Chain' (fun a b => a ≤ b ∧ b < a + K) (b :: ts) →
      ∀ x ∈ b :: ts, b ≤ x := by
  intro ts
  induction ts with
  | nil =>
    intro b _ x hx
    obtain rfl := List.mem_singleton.mp hx
    exact le_refl x
  | cons d ts ih =>
    intro b hchain x hx
    rcases List.mem_cons.mp hx with rfl | hx2
    · exact le_refl x
    · have hbd : b ≤ d := (List.chain'_cons.mp hchain).1.1
      exact hbd.trans (ih d (List.chain'_cons.mp hchain).2 x hx2)

/-- Every entry of a gap-bounded, ascending report list is at most its last. -/
theorem chain_le_last (K : Nat) :
    ∀ (ts : List Nat) (t : Nat),
      List.Chain' (fun a b => a ≤ b ∧ b < a + K) (t :: ts) →
      ∀ x ∈ t :: ts, x ≤ (t :: ts).getLast (List.cons_ne_nil t ts) := by
  intro ts
  induction ts with
  | nil =>
    intro t _ x hx
    obtain rfl := List.mem_singleton.mp hx
    rfl
  | cons b ts ih =>
    intro t hchain x hx
    have htail := (List.chain'_cons.mp hchain).2
    have htb : t ≤ b := (List.chain'_cons.mp hchain).1.1
    rw [List.getLast_cons (List.cons_ne_nil b ts)]
    rcases List.mem_cons.mp hx with rfl | hx2
    · exact htb.trans (ih b htail b (List.mem_cons_self b ts))
    · exact ih b htail x hx2

/-- In a burst whose gaps are below the TTL, every moment from the first
report to one TTL past the last report is covered: the latest report made by
then is at most q and its TTL reaches q. -/
theorem burst_cover (t : Nat) (ts : List Nat)
    (hchain : List.Chain' (fun a b =>
      a ≤ b ∧ b < a + unfulfillableCapacityErrorCacheTTL) (t :: ts))
    (q : Nat) (h1 : t ≤ q)
    (h2 : q ≤ (t :: ts).getLast (List.cons_ne_nil t ts) +
      unfulfillableCapacityErrorCacheTTL) :
    ∃ a, ((t :: ts).filter (fun x => decide (x ≤ q))).getLast? = some a ∧
      a ≤ q ∧ q ≤ a + unfulfillableCapacityErrorCacheTTL := by
  induction ts generalizing t with
  | nil =>
    refine ⟨t, ?_, h1, by simpa using h2⟩
    simp [List.filter, h1]
  | cons b ts ih =>
    have hpair := (List.chain'_cons.mp hchain).1
    have htail := (List.chain'_cons.mp hchain).2
    by_cases hqb : b ≤ q
    · have hlast : (t :: b :: ts).getLast (List.cons_ne_nil t (b :: ts)) =
          (b :: ts).getLast (List.cons_ne_nil b ts) :=
        List.getLast_cons (List.cons_ne_nil b ts)
      obtain ⟨a, ha?, ha1, ha2⟩ := ih b htail hqb (hlast ▸ h2)
      refine ⟨a, ?_, ha1, ha2⟩
      have hfil : (t :: b :: ts).filter (fun x => decide (x ≤ q)) =
          t :: (b :: ts).filter (fun x => decide (x ≤ q)) := by
        simp [List.filter, h1]
      rw [hfil]
      have hne : (b :: ts).filter (fun x => decide (x ≤ q)) ≠ [] := by
        intro hnil
        rw [hnil] at ha?
        simp at ha?
      cases hfil2 : (b :: ts).filter (fun x => decide (x ≤ q)) with
      | nil => exact absurd hfil2 hne
      | cons y ys =>
        rw [hfil2] at ha?
        rw [List.getLast?_cons_cons]
        exact ha?
    · push_neg at hqb
      have hfilnil : (b :: ts).filter (fun x => decide (x ≤ q)) = [] := by
        rw [List.filter_eq_nil_iff]
        intro x hx
        have hbx := chain_le_head unfulfillableCapacityErrorCacheTTL ts b htail x hx
        simp only [decide_eq_true_eq]
        omega
      refine ⟨t, ?_, h1, ?_⟩
      · have hfil : (t :: b :: ts).filter (fun x => decide (x ≤ q)) = [t] := by
          rw [List.filter_cons_of_pos (by simpa using h1), hfilnil]
        rw [hfil]
        rfl
      · have : b < t + unfulfillableCapacityErrorCacheTTL := hpair.2
        omega

/-- State of the negative cache current at query time q during a burst: the
reports at the given times that have already happened, applied in order. -/
def burstStateAt (times : List Nat) (s z c : String) (q : Nat) : ProviderState :=
  reportSeq initialProviderState (times.filter (fun a => decide (a ≤ q))) s z c

/-- C2: every `CacheUnavailable` call stores expiry `now + TTL` whether or not
the entry exists; a burst of reports with gaps below the TTL keeps the triple
suppressed at every moment from the first report through one TTL past the
last, and suppression is gone at any later moment. -/
theorem C2_sliding_expiry (s z c : String) (t : Nat) (ts : List Nat)
    (hchain : List.Chain' (fun a b =>
      a ≤ b ∧ b < a + unfulfillableCapacityErrorCacheTTL) (t :: ts)) :
    (∀ st now, (CacheUnavailable st now s z c).unavailableOfferings.lookup
        (UnavailableOfferingsCacheKey s z c) =
      some (now + unfulfillableCapacityErrorCacheTTL)) ∧
    (∀ q, t ≤ q →
      q ≤ (t :: ts).getLast (List.cons_ne_nil t ts) +
        unfulfillableCapacityErrorCacheTTL →
      unavailGet (burstStateAt (t :: ts) s z c q).unavailableOfferings q
        (UnavailableOfferingsCacheKey s z c) = true) ∧
    (∀ q, (t :: ts).getLast (List.cons_ne_nil t ts) +
        unfulfillableCapacityErrorCacheTTL < q →
      unavailGet (burstStateAt (t :: ts) s z c q).unavailableOfferings q
        (UnavailableOfferingsCacheKey s z c) = false) := by
  refine ⟨fun st now => CacheUnavailable_lookup st now s z c, ?_, ?_⟩
  · intro q hq1 hq2
    obtain ⟨a, ha?, ha1, ha2⟩ := burst_cover t ts hchain q hq1 hq2
    have hne : (t :: ts).filter (fun x => decide (x ≤ q)) ≠ [] := by
      intro hnil
      rw [hnil] at ha?
      simp at ha?
    have hgl : ((t :: ts).filter (fun x => decide (x ≤ q))).getLast hne = a := by
      have hl := List.getLast?_eq_getLast _ hne
      rw [hl] at ha?
      exact Option.some_inj.mp ha?
    unfold burstStateAt unavailGet
    rw [reportSeq_lookup_last initialProviderState _ hne, hgl]
    simpa using ha2
  · intro q hq
    have hfil : (t :: ts).filter (fun x => decide (x ≤ q)) = t :: ts := by
      rw [List.filter_eq_self]
      intro x hx
      have hxl := chain_le_last unfulfillableCapacityErrorCacheTTL ts t hchain x hx
      simp only [decide_eq_true_eq]
      omega
    have hq' : ¬ q ≤ (t :: ts).getLast (List.cons_ne_nil t ts) +
        unfulfillableCapacityErrorCacheTTL := by omega
    unfold burstStateAt unavailGet
    rw [hfil, reportSeq_lookup_last initialProviderState _ (List.cons_ne_nil t ts)]
    simp [hq']

/-- Witness for C2: reports at 0 and 100 (gap 100 < 180) keep the triple
suppressed at 280 = 100 + TTL and release it at 281. -/
theorem C2_sliding_expiry_witness :
    unavailGet (burstStateAt [0, 100] "m5.large" "us-x-1a" "spot" 280).unavailableOfferings
        280 (UnavailableOfferingsCacheKey "m5.large" "us-x-1a" "spot") = true ∧
    unavailGet (burstStateAt [0, 100] "m5.large" "us-x-1a" "spot" 281).unavailableOfferings
        281 (UnavailableOfferingsCacheKey "m5.large" "us-x-1a" "spot") = false := by
  have hch : List.Chain' (fun a b =>
      a ≤ b ∧ b < a + unfulfillableCapacityErrorCacheTTL) [0, 100] :=
    List.chain'_cons.mpr
      ⟨⟨by omega, by simp [unfulfillableCapacityErrorCacheTTL]⟩,
        List.chain'_singleton 100⟩
  have h := C2_sliding_expiry "m5.large" "us-x-1a" "spot" 0 [100] hch
  exact ⟨h.2.1 280 (by decide) (by decide), h.2.2 281 (by decide)⟩

/-! ### Claim C7 -/

/-- Boolean filter unfolded: no FPGA info and no blocklisted "g2" prefix. -/
theorem filter_eq (r : InstanceTypeInfo) :
    filter r = true ↔
      r.fpgaInfo = none ∧ ("g2".data.isPrefixOf r.instanceType.data) = false := by
  unfold filter hasAnyPrefix
  cases hf : r.fpgaInfo <;> cases hp : "g2".data.isPrefixOf r.instanceType.data <;>
    simp [hf, hp]

theorem buildInstanceTypes_lookup_aux (records : List InstanceTypeInfo) :
    ∀ (m : List (String × InstanceTypeInfo)) (cat : Catalog),
      records.foldlM (fun m it =>
        if filter it then
          (compressInstanceType it).map (fun c => mapInsert m it.instanceType c)
        else some m) m = some cat →
      ∀ name, (cat.lookup name).isSome ↔
        ((m.lookup name).isSome ∨
          ∃ r ∈ records, r.instanceType = name ∧ filter r = true) := by
  induction records with
  | nil =>
    intro m cat h name
    rw [List.foldlM_nil] at h
    obtain rfl : m = cat := by simpa using h
    simp
  | cons r rs ih =>
    intro m cat h name
    rw [List.foldlM_cons] at h
    by_cases hfr : filter r = true
    · rw [if_pos hfr] at h
      cases hcr : compressInstanceType r with
      | none => rw [hcr] at h; simp at h
      | some cmp =>
        rw [hcr] at h
        simp only [Option.map_some', Option.some_bind] at h
        have hih := ih (mapInsert m r.instanceType cmp) cat h name
        rw [hih]
        have hmi : ((mapInsert m r.instanceType cmp).lookup name).isSome ↔
            (name = r.instanceType ∨ (m.lookup name).isSome) := by
          rw [lookup_mapInsert]
          by_cases hname : name = r.instanceType <;> simp [hname]
        rw [hmi]
        constructor
        · rintro ((rfl | hm) | ⟨r', hr', hn', hf'⟩)
          · exact Or.inr ⟨r, List.mem_cons_self r rs, rfl, hfr⟩
          · exact Or.inl hm
          · exact Or.inr ⟨r', List.mem_cons_of_mem r hr', hn', hf'⟩
        · rintro (hm | ⟨r', hr', hn', hf'⟩)
          · exact Or.inl (Or.inr hm)
          · rcases List.mem_cons.mp hr' with rfl | hr2
            · exact Or.inl (Or.inl hn'.symm)
            · exact Or.inr ⟨r', hr2, hn', hf'⟩
    · rw [if_neg hfr] at h
      rw [ih m cat h name]
      constructor
      · rintro (hm | ⟨r', hr', hn', hf'⟩)
        · exact Or.inl hm
        · exact Or.inr ⟨r', List.mem_cons_of_mem r hr', hn', hf'⟩
      · rintro (hm | ⟨r', hr', hn', hf'⟩)
        · exact Or.inl hm
        · rcases List.mem_cons.mp hr' with rfl | hr2
          · exact absurd hf' hfr
          · exact Or.inr ⟨r', hr2, hn', hf'⟩

/-- C7: with distinct upstream names, an instance type fetched from EC2 is in
the stored filtered catalog exactly when it has no FPGA accelerator info and
its identifier does not start with the single blocklisted family prefix
"g2". -/
theorem C7_catalog_filter (records : List InstanceTypeInfo) (cat : Catalog)
    (hnodup : (records.map (fun r => r.instanceType)).Nodup)
    (hbuild : buildInstanceTypes records = some cat)
    (r : InstanceTypeInfo) (hr : r ∈ records) :
    (cat.lookup r.instanceType).isSome ↔
      (r.fpgaInfo = none ∧ ("g2".data.isPrefixOf r.instanceType.data) = false) := by
  have haux := buildInstanceTypes_lookup_aux records [] cat hbuild r.instanceType
  rw [haux]
  simp only [List.lookup_nil, Option.isSome_none, Bool.false_eq_true, false_or]
  constructor
  · rintro ⟨r', hr', hn', hf'⟩
    obtain rfl : r' = r := List.inj_on_of_nodup_map hnodup hr' hr hn'
    exact (filter_eq _).mp hf'
  · intro hcond
    exact ⟨r, hr, rfl, (filter_eq r).mpr hcond⟩

/-- Fully populated record used by the C7 witness. -/
def c7Good : InstanceTypeInfo :=
  { instanceType := "m5.large", supportedUsageClasses := ["spot"],
    vCpuInfo := some { defaultVCpus := 4 },
    memoryInfo := some { sizeInMiB := 8192 },
    processorInfo := some { supportedArchitectures := ["x86_64"] },
    networkInfo := some { ipv4AddressesPerInterface := 10,
                          maximumNetworkInterfaces := 4 } }

/-- Record blocked by the "g2" family prefix in the C7 witness. -/
def c7G2 : InstanceTypeInfo := { instanceType := "g2.2xlarge" }

/-- Record blocked by its FPGA info in the C7 witness. -/
def c7Fpga : InstanceTypeInfo :=
  { instanceType := "f1.2xlarge", fpgaInfo := some () }

/-- Witness for C7: a catalog built from a good record, a "g2"-prefixed
record and an FPGA record keeps exactly the good one. -/
theorem C7_catalog_filter_witness :
    (((buildInstanceTypes [c7Good, c7G2, c7Fpga]).getD []).lookup
        c7Good.instanceType).isSome ↔
      (c7Good.fpgaInfo = none ∧
        ("g2".data.isPrefixOf c7Good.instanceType.data) = false) :=
  C7_catalog_filter [c7Good, c7G2, c7Fpga]
    ((buildInstanceTypes [c7Good, c7G2, c7Fpga]).getD []) (by decide) (by rfl)
    c7Good (by decide)

/-! ### Claim C10 -/

/-- C10: compression dereferences the four nested info structs without nil
checks, so it succeeds exactly when all four are non-nil; a fetched record
passing the shape filter with one of them nil makes the whole catalog build,
and hence `Get`, panic (modelled as `none`). -/
theorem C10_compress_requires_nested_infos (i : InstanceTypeInfo) :
    ((compressInstanceType i).isSome ↔
      i.vCpuInfo.isSome ∧ i.memoryInfo.isSome ∧ i.processorInfo.isSome ∧
        i.networkInfo.isSome) ∧
    (∀ st now env sel records, cacheGetTypes st now = none →
      env.describeInstanceTypes = .ok records →
      buildInstanceTypes records = none →
      Get st now env sel = none) := by
  constructor
  · cases hv : i.vCpuInfo <;> cases hm : i.memoryInfo <;>
      cases hp : i.processorInfo <;> cases hn : i.networkInfo <;>
      simp [compressInstanceType, hv, hm, hp, hn]
  · intro st now env sel records hmiss henv hbuild
    simp [Get, getInstanceTypes, hmiss, henv, hbuild]

/-- Record with a nil `NetworkInfo`, passing the shape filter. -/
def c10BadRecord : InstanceTypeInfo :=
  { instanceType := "m5.large", supportedUsageClasses := ["spot"],
    vCpuInfo := some { defaultVCpus := 4 },
    memoryInfo := some { sizeInMiB := 8192 },
    processorInfo := some { supportedArchitectures := ["x86_64"] } }

/-- Environment whose catalog fetch returns the nil-`NetworkInfo` record. -/
def c10Env : Env :=
  { describeInstanceTypes := .ok [c10BadRecord]
    subnetAvailabilityZones := .ok []
    describeInstanceTypeOfferings := .ok []
    onDemandPrice := fun _ => none }

/-- Witness for C10: the record missing `NetworkInfo` fails compression and
makes `Get` panic on a cold cache. -/
theorem C10_compress_requires_nested_infos_witness :
    ¬((compressInstanceType c10BadRecord).isSome ∧
      (c10BadRecord.networkInfo.isSome)) ∧
    Get initialProviderState 0 c10Env [] = none := by
  have h := C10_compress_requires_nested_infos c10BadRecord
  refine ⟨fun hc => ?_, ?_⟩
  · have := (h.1.mp hc.1).2.2.2
    simp [c10BadRecord] at this
  · exact h.2 initialProviderState 0 c10Env [] [c10BadRecord] rfl rfl (by rfl)

/-! ### Claim C6 -/

/-- C6: a failed paginated fetch (catalog, or zonal offerings after subnet
resolution) aborts the call with the error and returns the provider state
unchanged — in particular the corresponding cache entry keeps its prior
value: no partial accumulation is stored and no previous result is
substituted. -/
theorem C6_fetch_error_leaves_cache_unchanged
    (st : ProviderState) (now : Nat) (env : Env) (sel : Selector) :
    (∀ e, cacheGetTypes st now = none → env.describeInstanceTypes = .error e →
      getInstanceTypes st now env = some (st, .error e) ∧
      Get st now env sel = some (st, .error e)) ∧
    (∀ e azs, zonesCacheLookup st.zonesCache sel now = none →
      env.subnetAvailabilityZones = .ok azs →
      env.describeInstanceTypeOfferings = .error e →
      getInstanceTypeZones st now env sel = (st, .error e)) := by
  constructor
  · intro e hmiss herr
    constructor
    · unfold getInstanceTypes
      rw [hmiss, herr]
    · simp [Get, getInstanceTypes, hmiss, herr]
  · intro e azs hzmiss hsub herr
    unfold getInstanceTypeZones
    rw [hzmiss, hsub, herr]

/-- State holding an expired catalog entry and an expired zonal entry for the
empty selector, used by the C6 witness. -/
def c6StaleState : ProviderState :=
  { typesCache := some ([("m5.large", c7Good)], 10)
    zonesCache := [([], [("m5.large", ["us-x-1a"])], 10)]
    unavailableOfferings := [] }

/-- Environment whose two paginated fetches fail, used by the C6 witness. -/
def c6FailEnv : Env :=
  { describeInstanceTypes := .error ()
    subnetAvailabilityZones := .ok ["us-x-1a"]
    describeInstanceTypeOfferings := .error ()
    onDemandPrice := fun _ => none }

/-- Witness for C6: at time 500 both stale entries (expiry 10) miss, both
fetches fail, and both calls report the error with the state unchanged. -/
theorem C6_fetch_error_leaves_cache_unchanged_witness :
    (getInstanceTypes c6StaleState 500 c6FailEnv =
        some (c6StaleState, .error ()) ∧
      Get c6StaleState 500 c6FailEnv [] = some (c6StaleState, .error ())) ∧
    getInstanceTypeZones c6StaleState 500 c6FailEnv [] =
      (c6StaleState, .error ()) := by
  have h := C6_fetch_error_leaves_cache_unchanged c6StaleState 500 c6FailEnv []
  exact ⟨h.1 () (by rfl) rfl, h.2 () ["us-x-1a"] (by rfl) rfl rfl⟩

/-! ### Claim C8 -/

theorem accumulateZones_aux (zones : List String) (offs : List (String × String)) :
    ∀ m : ZoneMap, (∀ name zs, m.lookup name = some zs → ∀ z ∈ zs, z ∈ zones) →
      ∀ name zs,
        (offs.foldl (fun m off =>
          if off.2 ∈ zones then
            mapInsert m off.1 (setInsert ((m.lookup off.1).getD []) off.2)
          else m) m).lookup name = some zs →
        ∀ z ∈ zs, z ∈ zones := by
  induction offs with
  | nil => intro m hm name zs h z hz; exact hm name zs h z hz
  | cons off offs ih =>
    intro m hm name zs h z hz
    rw [List.foldl_cons] at h
    by_cases hin : off.2 ∈ zones
    · rw [if_pos hin] at h
      refine ih _ ?_ name zs h z hz
      intro name' zs' hl' z' hz'
      rw [lookup_mapInsert] at hl'
      by_cases hname : name' = off.1
      · rw [if_pos hname] at hl'
        obtain rfl := Option.some_inj.mp hl'.symm
        rcases (mem_setInsert _ _ _).mp hz' with hold | rfl
        · cases hme : m.lookup off.1 with
          | none => rw [hme] at hold; simp at hold
          | some s =>
            rw [hme] at hold
            exact hm off.1 s hme z' hold
        · exact hin
      · rw [if_neg hname] at hl'
        exact hm name' zs' hl' z' hz'
    · rw [if_neg hin] at h
      exact ih m hm name zs h z hz

/-- The accumulated shape-to-zones map only mentions candidate zones. -/
theorem accumulateZones_sub (zones : List String) (offs : List (String × String))
    (name : String) (zs : List String)
    (h : (accumulateZones zones offs).lookup name = some zs) :
    ∀ z ∈ zs, z ∈ zones :=
  accumulateZones_aux zones offs [] (by intro name' zs' h'; simp at h') name zs h

/-- The override keeps the candidate-zone containment. -/
theorem applyOverride_sub (zones : List String) (itz : ZoneMap)
    (hitz : ∀ name zs, itz.lookup name = some zs → ∀ z ∈ zs, z ∈ zones)
    (name : String) (zs : List String)
    (h : (applyOverride zones itz).lookup name = some zs) :
    ∀ z ∈ zs, z ∈ zones := by
  unfold applyOverride at h
  split at h
  · rename_i hcond
    rw [lookup_mapInsert] at h
    by_cases hname : name = "p4de.24xlarge"
    · rw [if_pos hname] at h
      obtain rfl := Option.some_inj.mp h.symm
      intro z hz
      obtain rfl : z = "us-east-1d" := by simpa [newStringSet, setInsert] using hz
      exact hcond.2
    · rw [if_neg hname] at h
      exact hitz name zs h
  · exact hitz name zs h

/-- The override fires exactly as coded: absent shape plus candidate zone. -/
theorem applyOverride_fires (zones : List String) (itz : ZoneMap)
    (habs : itz.lookup "p4de.24xlarge" = none) (hz : "us-east-1d" ∈ zones) :
    (applyOverride zones itz).lookup "p4de.24xlarge" = some ["us-east-1d"] := by
  unfold applyOverride
  rw [if_pos ⟨by rw [habs]; rfl, hz⟩, lookup_mapInsert]
  rfl

/-- C8: on a zonal-cache miss the returned (and cached) map uses only zones
of the resolved subnets, and when `p4de.24xlarge` is absent from the
accumulated map while `us-east-1d` is a candidate zone, the returned map
carries exactly that one zone for it. -/
theorem C8_zone_accumulation_and_override (st : ProviderState) (now : Nat)
    (env : Env) (sel : Selector) (azs : List String)
    (offs : List (String × String))
    (hmiss : zonesCacheLookup st.zonesCache sel now = none)
    (hsub : env.subnetAvailabilityZones = .ok azs)
    (hoff : env.describeInstanceTypeOfferings = .ok offs) :
    getInstanceTypeZones st now env sel =
      (ProviderState.mk st.typesCache
        (zonesCacheSet st.zonesCache sel
          (applyOverride (newStringSet azs) (accumulateZones (newStringSet azs) offs))
          (now + instanceTypesAndZonesCacheTTL))
        st.unavailableOfferings,
       .ok (applyOverride (newStringSet azs)
          (accumulateZones (newStringSet azs) offs))) ∧
    (∀ name zs,
      (accumulateZones (newStringSet azs) offs).lookup name = some zs →
      ∀ z ∈ zs, z ∈ newStringSet azs) ∧
    (∀ name zs,
      (applyOverride (newStringSet azs)
        (accumulateZones (newStringSet azs) offs)).lookup name = some zs →
      ∀ z ∈ zs, z ∈ newStringSet azs) ∧
    ((accumulateZones (newStringSet azs) offs).lookup "p4de.24xlarge" = none →
      "us-east-1d" ∈ newStringSet azs →
      (applyOverride (newStringSet azs)
        (accumulateZones (newStringSet azs) offs)).lookup "p4de.24xlarge" =
        some ["us-east-1d"]) := by
  refine ⟨?_, ?_, ?_, ?_⟩
  · unfold getInstanceTypeZones
    rw [hmiss, hsub, hoff]
  · exact fun name zs h => accumulateZones_sub _ offs name zs h
  · exact fun name zs h =>
      applyOverride_sub _ _ (fun n zs' h' => accumulateZones_sub _ offs n zs' h')
        name zs h
  · exact fun habs hz => applyOverride_fires _ _ habs hz

/-- Environment for the C8 witness: subnets in us-east-1d and us-east-1a,
one offering restricted to a candidate zone and one outside it, and no
reported `p4de.24xlarge`. -/
def c8Env : Env :=
  { describeInstanceTypes := .ok []
    subnetAvailabilityZones := .ok ["us-east-1d", "us-east-1a"]
    describeInstanceTypeOfferings :=
      .ok [("m5.large", "us-east-1a"), ("m5.large", "eu-west-1a")]
    onDemandPrice := fun _ => none }

/-- Witness for C8: the accumulated map keeps only "us-east-1a" for
m5.large, and the override injects p4de.24xlarge in us-east-1d. -/
theorem C8_zone_accumulation_and_override_witness :
    getInstanceTypeZones initialProviderState 0 c8Env [] =
      (ProviderState.mk initialProviderState.typesCache
        (zonesCacheSet initialProviderState.zonesCache []
          (applyOverride (newStringSet ["us-east-1d", "us-east-1a"])
            (accumulateZones (newStringSet ["us-east-1d", "us-east-1a"])
              [("m5.large", "us-east-1a"), ("m5.large", "eu-west-1a")]))
          (0 + instanceTypesAndZonesCacheTTL))
        initialProviderState.unavailableOfferings,
       .ok (applyOverride (newStringSet ["us-east-1d", "us-east-1a"])
          (accumulateZones (newStringSet ["us-east-1d", "us-east-1a"])
            [("m5.large", "us-east-1a"), ("m5.large", "eu-west-1a")]))) ∧
    (applyOverride (newStringSet ["us-east-1d", "us-east-1a"])
      (accumulateZones (newStringSet ["us-east-1d", "us-east-1a"])
        [("m5.large", "us-east-1a"), ("m5.large", "eu-west-1a")])).lookup
      "p4de.24xlarge" = some ["us-east-1d"] := by
  have h := C8_zone_accumulation_and_override initialProviderState 0 c8Env []
    ["us-east-1d", "us-east-1a"]
    [("m5.large", "us-east-1a"), ("m5.large", "eu-west-1a")] rfl rfl rfl
  exact ⟨h.1, h.2.2.2 (by rfl) (by decide)⟩

/-! ### Claim C4 -/

/-- C4: a shape present in the catalog but absent from the zonal map is
returned by `Get` with an empty offering list, and the missing entry causes
no error. -/
theorem C4_missing_zone_entry_yields_empty (st : ProviderState) (now : Nat)
    (env : Env) (sel : Selector) (cat : Catalog) (st1 : ProviderState)
    (itz : ZoneMap) (st2 : ProviderState) (k : String)
    (info : InstanceTypeInfo)
    (htypes : getInstanceTypes st now env = some (st1, .ok cat))
    (hzones : getInstanceTypeZones st1 now env sel = (st2, .ok itz))
    (hmem : (k, info) ∈ cat)
    (habsent : itz.lookup info.instanceType = none) :
    Get st now env sel =
      some (st2, .ok (cat.map (assembleResult env st2 now itz))) ∧
    InstanceTypeResult.mk info
        ((env.onDemandPrice info.instanceType).getD maxFloat64) [] ∈
      cat.map (assembleResult env st2 now itz) := by
  constructor
  · simp [Get, htypes, hzones]
  · refine List.mem_map.mpr ⟨(k, info), hmem, ?_⟩
    simp [assembleResult, habsent, createOfferings]

/-- Environment for the C4 witness: the catalog has m5.large, but the zonal
fetch reports no offerings and the subnets are outside us-east-1d, so the
zonal map stays empty. -/
def c4Env : Env :=
  { describeInstanceTypes := .ok [c7Good]
    subnetAvailabilityZones := .ok ["us-x-1a"]
    describeInstanceTypeOfferings := .ok []
    onDemandPrice := fun _ => none }

/-- State after the catalog fetch of the C4 witness. -/
def c4St1 : ProviderState :=
  ProviderState.mk (some ([("m5.large", c7Good)], instanceTypesAndZonesCacheTTL))
    [] []

/-- State after the zonal fetch of the C4 witness. -/
def c4St2 : ProviderState :=
  ProviderState.mk c4St1.typesCache [([], [], instanceTypesAndZonesCacheTTL)] []

/-- Witness for C4: `Get` succeeds and returns m5.large with no offerings. -/
theorem C4_missing_zone_entry_yields_empty_witness :
    Get initialProviderState 0 c4Env [] =
      some (c4St2, .ok ([("m5.large", c7Good)].map
        (assembleResult c4Env c4St2 0 []))) ∧
    InstanceTypeResult.mk c7Good
        ((c4Env.onDemandPrice c7Good.instanceType).getD maxFloat64) [] ∈
      [("m5.large", c7Good)].map (assembleResult c4Env c4St2 0 []) := by
  have h := C4_missing_zone_entry_yields_empty initialProviderState 0 c4Env []
    [("m5.large", c7Good)] c4St1 [] c4St2 "m5.large" c7Good (by rfl) (by rfl)
    (by decide) rfl
  exact h

/-! ### Claim C5 -/

/-- Second fully populated record, priced by the C5 environments. -/
def c5Other : InstanceTypeInfo :=
  { instanceType := "c5.large", supportedUsageClasses := ["spot"],
    vCpuInfo := some { defaultVCpus := 2 },
    memoryInfo := some { sizeInMiB := 4096 },
    processorInfo := some { supportedArchitectures := ["x86_64"] },
    networkInfo := some { ipv4AddressesPerInterface := 10,
                          maximumNetworkInterfaces := 3 } }

/-- Environment where pricing errors for m5.large but successfully returns
`math.MaxFloat64` for c5.large. -/
def c5Env : Env :=
  { describeInstanceTypes := .ok [c7Good, c5Other]
    subnetAvailabilityZones := .ok []
    describeInstanceTypeOfferings := .ok []
    onDemandPrice := fun n => if n = "c5.large" then some maxFloat64 else none }

/-- C5 is false as stated: the sentinel attached on a pricing error is the
literal `math.MaxFloat64`, which is not strictly larger than the price of a
successfully-priced shape whose price is itself `math.MaxFloat64` — both
shapes come back with equal prices. -/
theorem C5_counterexample :
    c5Env.onDemandPrice "c5.large" = some maxFloat64 ∧
    c5Env.onDemandPrice "m5.large" = none ∧
    ((Get initialProviderState 0 c5Env []).map (fun p =>
      p.2.map (fun res => res.map (fun r => (r.info.instanceType, r.price))))) =
      some (.ok [("m5.large", maxFloat64), ("c5.large", maxFloat64)]) ∧
    ¬ maxFloat64 > maxFloat64 :=
  ⟨rfl, rfl, rfl, lt_irrefl maxFloat64⟩

/-- C5 (amended): a shape whose pricing lookup fails is still returned, with
its offerings and the sentinel price `math.MaxFloat64`; the sentinel equals
the price of every failed shape and strictly exceeds the price of every
successfully-priced shape whose price is below `math.MaxFloat64` (every
realistic price), though not of one priced at `math.MaxFloat64` itself. -/
theorem C5_price_degradation (st : ProviderState) (now : Nat) (env : Env)
    (sel : Selector) (cat : Catalog) (st1 : ProviderState) (itz : ZoneMap)
    (st2 : ProviderState) (k : String) (info : InstanceTypeInfo)
    (htypes : getInstanceTypes st now env = some (st1, .ok cat))
    (hzones : getInstanceTypeZones st1 now env sel = (st2, .ok itz))
    (hmem : (k, info) ∈ cat)
    (hfail : env.onDemandPrice info.instanceType = none) :
    Get st now env sel =
      some (st2, .ok (cat.map (assembleResult env st2 now itz))) ∧
    InstanceTypeResult.mk info maxFloat64
        (createOfferings st2.unavailableOfferings now info
          ((itz.lookup info.instanceType).getD [])) ∈
      cat.map (assembleResult env st2 now itz) ∧
    (∀ r ∈ cat.map (assembleResult env st2 now itz), ∀ p,
      env.onDemandPrice r.info.instanceType = some p → r.price = p) ∧
    (∀ r ∈ cat.map (assembleResult env st2 now itz), ∀ p,
      env.onDemandPrice r.info.instanceType = some p → p < maxFloat64 →
        r.price < maxFloat64) := by
  have hprice : ∀ r ∈ cat.map (assembleResult env st2 now itz), ∀ p,
      env.onDemandPrice r.info.instanceType = some p → r.price = p := by
    intro r hr p hp
    obtain ⟨kv, hkv, rfl⟩ := List.mem_map.mp hr
    simp only [assembleResult] at hp ⊢
    rw [hp]
    rfl
  refine ⟨?_, ?_, hprice, ?_⟩
  · simp [Get, htypes, hzones]
  · refine List.mem_map.mpr ⟨(k, info), hmem, ?_⟩
    simp [assembleResult, hfail]
  · intro r hr p hp hlt
    rw [hprice r hr p hp]
    exact hlt

/-- Environment for the C5 witness: pricing fails for m5.large and returns 1
for c5.large. -/
def c5WEnv : Env :=
  { describeInstanceTypes := .ok [c7Good, c5Other]
    subnetAvailabilityZones := .ok []
    describeInstanceTypeOfferings := .ok []
    onDemandPrice := fun n => if n = "c5.large" then some 1 else none }

/-- Intermediate state after the catalog fetch of the C5 witness. -/
def c5WSt1 : ProviderState :=
  ProviderState.mk
    (some ([("m5.large", c7Good), ("c5.large", c5Other)],
      instanceTypesAndZonesCacheTTL)) [] []

/-- Final state of the C5 witness run. -/
def c5WSt2 : ProviderState :=
  ProviderState.mk c5WSt1.typesCache [([], [], instanceTypesAndZonesCacheTTL)] []

/-- Witness for C5 (amended): the unpriced m5.large comes back with the
sentinel, and the price 1 of c5.large stays strictly below it. -/
theorem C5_price_degradation_witness :
    InstanceTypeResult.mk c7Good maxFloat64
        (createOfferings c5WSt2.unavailableOfferings 0 c7Good
          ((([] : ZoneMap).lookup c7Good.instanceType).getD [])) ∈
      [("m5.large", c7Good), ("c5.large", c5Other)].map
        (assembleResult c5WEnv c5WSt2 0 []) ∧
    (assembleResult c5WEnv c5WSt2 0 [] ("c5.large", c5Other)).price <
      maxFloat64 := by
  have h := C5_price_degradation initialProviderState 0 c5WEnv []
    [("m5.large", c7Good), ("c5.large", c5Other)] c5WSt1 [] c5WSt2
    "m5.large" c7Good (by rfl) (by rfl) (by decide) rfl
  refine ⟨h.2.1, ?_⟩
  refine h.2.2.2 (assembleResult c5WEnv c5WSt2 0 [] ("c5.large", c5Other))
    (List.mem_map.mpr ⟨("c5.large", c5Other), by decide, rfl⟩) 1 rfl ?_
  rw [maxFloat64]
  norm_num

/-! ### Claim C9 -/

/-- Shape of the provider state after a successful catalog read: the catalog
is cached unexpired, and the other fields are untouched. -/
theorem getInstanceTypes_ok_state (st : ProviderState) (now : Nat) (env : Env)
    (stA : ProviderState) (cat : Catalog)
    (h : getInstanceTypes st now env = some (stA, .ok cat)) :
    (∃ e, stA.typesCache = some (cat, e) ∧ now ≤ e) ∧
    stA.zonesCache = st.zonesCache ∧
    stA.unavailableOfferings = st.unavailableOfferings := by
  unfold getInstanceTypes at h
  split at h
  · rename_i cached hc
    obtain ⟨rfl, rfl⟩ : st = stA ∧ cached = cat := by simpa using h
    unfold cacheGetTypes at hc
    cases hts : st.typesCache with
    | none => rw [hts] at hc; simp at hc
    | some pr =>
      obtain ⟨c0, e0⟩ := pr
      rw [hts] at hc
      by_cases hle : now ≤ e0
      · have hcc : c0 = cached := by simpa [hle] using hc
        exact ⟨⟨e0, by rw [hcc], hle⟩, rfl, rfl⟩
      · simp [hle] at hc
  · rename_i hc
    split at h
    · simp at h
    · rename_i records hd
      cases hb : buildInstanceTypes records with
      | none => rw [hb] at h; simp at h
      | some built =>
        rw [hb] at h
        simp only [Option.map_some', Option.some_inj] at h
        injection h with h1 h2
        injection h2 with h2
        subst h2
        subst h1
        exact ⟨⟨now + instanceTypesAndZonesCacheTTL, rfl, Nat.le_add_right now _⟩,
          rfl, rfl⟩

/-- Finding the entry written by `zonesCacheSet` for its own selector. -/
theorem find?_zonesCacheSet (c : List (Selector × ZoneMap × Nat))
    (sel : Selector) (m : ZoneMap) (e : Nat) :
    (zonesCacheSet c sel m e).find? (fun en => en.1 = sel) = some (sel, m, e) := by
  unfold zonesCacheSet
  split
  · rename_i hpresent
    induction c with
    | nil => simp at hpresent
    | cons en c ih =>
      by_cases hsel : en.1 = sel
      · simp [List.find?, hsel]
      · rw [List.map_cons, if_neg hsel]
        rw [List.find?_cons_of_neg _ (by simpa using hsel)]
        rw [List.find?_cons_of_neg _ (by simpa using hsel)] at hpresent
        exact ih hpresent
  · rename_i habsent
    induction c with
    | nil => simp [List.find?]
    | cons en c ih =>
      have hen : ¬ (en.1 = sel) := by
        intro hsel
        apply habsent
        rw [List.find?_cons_of_pos _ (by simpa using hsel)]
        rfl
      rw [List.cons_append, List.find?_cons_of_neg _ (by simpa using hen)]
      refine ih ?_
      intro hsome
      apply habsent
      rw [List.find?_cons_of_neg _ (by simpa using hen)]
      exact hsome

/-- Shape of the provider state after a successful zonal read: the returned
map is cached unexpired under the selector, and the other fields are
untouched. -/
theorem getInstanceTypeZones_ok_state (st : ProviderState) (now : Nat)
    (env : Env) (sel : Selector) (stB : ProviderState) (itz : ZoneMap)
    (h : getInstanceTypeZones st now env sel = (stB, .ok itz)) :
    (∃ e, stB.zonesCache.find? (fun en => en.1 = sel) = some (sel, itz, e) ∧
      now ≤ e) ∧
    stB.typesCache = st.typesCache ∧
    stB.unavailableOfferings = st.unavailableOfferings := by
  unfold getInstanceTypeZones at h
  split at h
  · rename_i cached hc
    obtain ⟨rfl, rfl⟩ : st = stB ∧ cached = itz := by
      simpa [Prod.ext_iff] using h
    unfold zonesCacheLookup at hc
    cases hf : st.zonesCache.find? (fun en => en.1 = sel) with
    | none => rw [hf] at hc; simp at hc
    | some en =>
      obtain ⟨s0, m0, e0⟩ := en
      have hs0 : s0 = sel := by
        have hp := List.find?_some hf
        simpa using hp
      rw [hf] at hc
      by_cases hle : now ≤ e0
      · have hmm : m0 = cached := by simpa [hle] using hc
        exact ⟨⟨e0, by rw [hs0, hmm], hle⟩, rfl, rfl⟩
      · simp [hle] at hc
  · rename_i hc
    split at h
    · simp [Prod.ext_iff] at h
    · rename_i azs hs
      split at h
      · simp [Prod.ext_iff] at h
      · rename_i offs ho
        injection h with h1 h2
        injection h2 with h2
        subst h2
        subst h1
        refine ⟨⟨now + instanceTypesAndZonesCacheTTL,
          find?_zonesCacheSet st.zonesCache sel _ _, Nat.le_add_right now _⟩,
          rfl, rfl⟩

/-- The synthesized offerings depend on the query time only through each
key's suppression status. -/
theorem createOfferings_time_congr (u : UnavailableCache) (t1 t2 : Nat)
    (h : ∀ k, unavailGet u t1 k = unavailGet u t2 k)
    (it : InstanceTypeInfo) (zones : List String) :
    createOfferings u t1 it zones = createOfferings u t2 it zones := by
  rw [createOfferings_eq, createOfferings_eq]
  have hfz : offeringsForZone u t1 it.instanceType
      (newStringSet it.supportedUsageClasses) =
      offeringsForZone u t2 it.instanceType
        (newStringSet it.supportedUsageClasses) := by
    funext z
    unfold offeringsForZone
    congr 1
    funext c
    rw [h]
  rw [hfz]

theorem assembleResult_time_congr (env : Env) (st : ProviderState)
    (t1 t2 : Nat) (itz : ZoneMap)
    (h : ∀ k, unavailGet st.unavailableOfferings t1 k =
      unavailGet st.unavailableOfferings t2 k)
    (kv : String × InstanceTypeInfo) :
    assembleResult env st t1 itz kv = assembleResult env st t2 itz kv := by
  unfold assembleResult
  simp only [createOfferings_time_congr st.unavailableOfferings t1 t2 h]

/-- C9 (amended): two successful `Get` calls with the same request, where the
cache entries present after the first are still unexpired at the second and
every negative-cache key's suppression status is unchanged between the call
times (no intervening report and no entry expiring in between), return the
same result list. -/
theorem C9_cache_hit_stability (st : ProviderState) (t1 t2 : Nat) (env : Env)
    (sel : Selector) (st1 st2 : ProviderState)
    (r1 r2 : List InstanceTypeResult)
    (hGet1 : Get st t1 env sel = some (st1, .ok r1))
    (hGet2 : Get st1 t2 env sel = some (st2, .ok r2))
    (htypes : (cacheGetTypes st1 t2).isSome)
    (hzones : (zonesCacheLookup st1.zonesCache sel t2).isSome)
    (hstable : ∀ k, unavailGet st1.unavailableOfferings t1 k =
      unavailGet st1.unavailableOfferings t2 k) :
    r1 = r2 := by
  unfold Get at hGet1
  split at hGet1
  · exact absurd hGet1 (by simp)
  · exact absurd hGet1 (by simp)
  · rename_i stA cat hA
    split at hGet1
    · exact absurd hGet1 (by simp)
    · rename_i stB itz hB
      obtain ⟨rfl, rfl⟩ : stB = st1 ∧
          cat.map (assembleResult env stB t1 itz) = r1 := by
        simpa using hGet1
      obtain ⟨⟨e1, hts1, hle1⟩, hzeq, hueq⟩ :=
        getInstanceTypes_ok_state st t1 env stA cat hA
      obtain ⟨⟨e2, hzf, hle2⟩, hteq, hueq2⟩ :=
        getInstanceTypeZones_ok_state stA t1 env sel stB itz hB
      have hts : stB.typesCache = some (cat, e1) := by rw [hteq, hts1]
      have ht2 : cacheGetTypes stB t2 = some cat := by
        unfold cacheGetTypes
        rw [hts]
        by_cases hle : t2 ≤ e1
        · simp [hle]
        · exfalso
          unfold cacheGetTypes at htypes
          rw [hts] at htypes
          simp [hle] at htypes
      have hz2 : zonesCacheLookup stB.zonesCache sel t2 = some itz := by
        unfold zonesCacheLookup
        rw [hzf]
        by_cases hle : t2 ≤ e2
        · simp [hle]
        · exfalso
          unfold zonesCacheLookup at hzones
          rw [hzf] at hzones
          simp [hle] at hzones
      have hg2 : Get stB t2 env sel =
          some (stB, .ok (cat.map (assembleResult env stB t2 itz))) := by
        simp [Get, getInstanceTypes, getInstanceTypeZones, ht2, hz2]
      rw [hg2] at hGet2
      obtain ⟨rfl, rfl⟩ : stB = st2 ∧
          cat.map (assembleResult env stB t2 itz) = r2 := by
        simpa using hGet2
      have hfe : assembleResult env stB t1 itz = assembleResult env stB t2 itz :=
        funext (assembleResult_time_congr env stB t1 t2 itz hstable)
      rw [hfe]

/-- Shape used by the C9 runs: instance type "A" with the class "spot". -/
def c9Shape : InstanceTypeInfo :=
  { instanceType := "A", supportedUsageClasses := ["spot"],
    vCpuInfo := some { defaultVCpus := 4 },
    memoryInfo := some { sizeInMiB := 8192 },
    processorInfo := some { supportedArchitectures := ["x86_64"] },
    networkInfo := some { ipv4AddressesPerInterface := 10,
                          maximumNetworkInterfaces := 4 } }

/-- Environment of the C9 runs: "A" is offered in candidate zone "z1". -/
def c9Env : Env :=
  { describeInstanceTypes := .ok [c9Shape]
    subnetAvailabilityZones := .ok ["z1"]
    describeInstanceTypeOfferings := .ok [("A", "z1")]
    onDemandPrice := fun _ => some 1 }

/-- State after reporting (spot, A, z1) unavailable at time 0, before any
`Get`. -/
def c9AfterReport : ProviderState :=
  CacheUnavailable initialProviderState 0 "A" "z1" "spot"

/-- First `Get`, at time 1 (within the quarantine TTL of the report). -/
def c9Run1 : Option (ProviderState × Except Unit (List InstanceTypeResult)) :=
  Get c9AfterReport 1 c9Env []

/-- Second `Get`, at time 200: within the catalog TTL of the first call, with
no intervening report, but past the quarantine expiry 180. -/
def c9Run2 : Option (ProviderState × Except Unit (List InstanceTypeResult)) :=
  match c9Run1 with
  | some (st1, _) => Get st1 200 c9Env []
  | none => none

/-- C9 is false as stated: both `Get` calls use the same request, lie within
the catalog TTL (gap 199 ≤ 300) and have no report between them, yet the
negative-cache entry for (spot, A, z1) expires between them (at 180), so the
first call returns no offering for "A" and the second returns one. -/
theorem C9_counterexample :
    (c9Run1.map (fun p => p.2.map (fun res => res.map (fun r => r.offerings)))) =
      some (.ok [[]]) ∧
    (c9Run2.map (fun p => p.2.map (fun res => res.map (fun r => r.offerings)))) =
      some (.ok [[Offering.mk "z1" "spot"]]) ∧
    200 - 1 ≤ instanceTypesAndZonesCacheTTL ∧
    ([[]] : List (List Offering)) ≠ [[Offering.mk "z1" "spot"]] :=
  ⟨rfl, rfl, by decide, by decide⟩

/-- Environment of the C9 witness: as `c9Env`, with no negative reports. -/
def c9WEnv : Env :=
  { describeInstanceTypes := .ok [c9Shape]
    subnetAvailabilityZones := .ok ["z1"]
    describeInstanceTypeOfferings := .ok [("A", "z1")]
    onDemandPrice := fun _ => some 1 }

/-- Zonal map produced by the C9 witness run. -/
def c9WItz : ZoneMap := [("A", ["z1"])]

/-- Provider state after the first C9 witness call. -/
def c9WSt1 : ProviderState :=
  ProviderState.mk (some ([("A", c9Shape)], instanceTypesAndZonesCacheTTL))
    [([], c9WItz, instanceTypesAndZonesCacheTTL)] []

/-- Witness for C9 (amended): with an empty negative cache, the results of
the calls at times 0 and 10 coincide. -/
theorem C9_cache_hit_stability_witness :
    [("A", c9Shape)].map (assembleResult c9WEnv c9WSt1 0 c9WItz) =
      [("A", c9Shape)].map (assembleResult c9WEnv c9WSt1 10 c9WItz) := by
  refine C9_cache_hit_stability initialProviderState 0 10 c9WEnv [] c9WSt1
    c9WSt1 ([("A", c9Shape)].map (assembleResult c9WEnv c9WSt1 0 c9WItz))
    ([("A", c9Shape)].map (assembleResult c9WEnv c9WSt1 10 c9WItz))
    (by rfl) (by rfl) (by rfl) (by rfl) ?_
  intro k
  rfl
